import Mathlib

/-!
Verification of the py-gitguardian batching, chunking and retry engine.

The repository's visible source is `src/pygitguardian/__init__.py` (package
metadata: the `__version__` string and the assignment to `GGClient._version`).
The chunking / dispatch / aggregation engine lives in the `client` module,
which is not part of the visible source; those components are modelled from
the specification, as marked on each definition.
-/

/-- Modelled from the spec: DocumentModel (§3) — one content unit to be
scanned: raw content (a byte sequence) plus metadata (filename, optional
filemode).  The missing `client` module defines the real class. -/
structure DocumentModel where
  content : List Nat
  filename : Option String
  filemode : Option String
deriving DecidableEq, Repr

/-- Byte length of a document's content. -/
def docSize (d : DocumentModel) : Nat := d.content.length

/-- Modelled from the spec: LimitPolicy (§4.1) — the remote service's
constraints: maximum document count per request, maximum total payload bytes
per request, maximum bytes per single document.  The missing `client` module
holds the real constants. -/
structure LimitPolicy where
  max_documents_per_batch : Nat
  max_bytes_per_batch : Nat
  max_bytes_per_document : Nat
deriving DecidableEq, Repr

/-- Modelled from the spec: Batch (§3) — an ordered group of documents sent
together in one request, with its cached byte total. -/
structure Batch where
  documents : List DocumentModel
  byte_total : Nat
deriving DecidableEq, Repr

/-- Modelled from the spec: the `ContentTooLarge` condition (§4.1, §7),
identifying the offending document by its position and filename.  The real
exception class lives in the missing `client` module (it is re-exported by
`src/pygitguardian/__init__.py`). -/
structure ContentTooLarge where
  index : Nat
  filename : Option String
deriving DecidableEq, Repr

/-- Modelled from the spec: the loop body of the Chunker (§4.2).  Iterates
documents in input order, accumulating into the current batch `cur`; starts a
new batch whenever adding the next document would exceed either
`max_documents_per_batch` or `max_bytes_per_batch` (the boundary is
inclusive); fails immediately with `ContentTooLarge` on a document whose own
size exceeds `max_bytes_per_document`.  `idx` is the input position of the
next document, `acc` the batches already closed. -/
def chunkGo (p : LimitPolicy) : Nat → Batch → List Batch → List DocumentModel →
    Except ContentTooLarge (List Batch)
  | _, cur, acc, [] =>
    .ok (acc ++ if cur.documents.isEmpty then [] else [cur])
  | idx, cur, acc, d :: rest =>
    if p.max_bytes_per_document < docSize d then
      .error ⟨idx, d.filename⟩
    else if cur.documents.length + 1 ≤ p.max_documents_per_batch ∧
        cur.byte_total + docSize d ≤ p.max_bytes_per_batch then
      chunkGo p (idx + 1) ⟨cur.documents ++ [d], cur.byte_total + docSize d⟩ acc rest
    else
      chunkGo p (idx + 1) ⟨[d], docSize d⟩ (acc ++ [cur]) rest

/-- Modelled from the spec: Chunker (§4.2) — splits a list of documents into
an ordered sequence of batches satisfying the limit policy, preserving input
order, or fails with `ContentTooLarge`. -/
def chunk (p : LimitPolicy) (docs : List DocumentModel) :
    Except ContentTooLarge (List Batch) :=
  chunkGo p 0 ⟨[], 0⟩ [] docs

/-- The Batch invariant of §3: `byte_total` equals the sum of the documents'
content byte lengths, `byte_total` is within `max_bytes_per_batch`, and the
document count is within `max_documents_per_batch`. -/
def BatchInv (p : LimitPolicy) (b : Batch) : Prop :=
  b.byte_total = (b.documents.map docSize).sum ∧
    b.byte_total ≤ p.max_bytes_per_batch ∧
    b.documents.length ≤ p.max_documents_per_batch

instance (p : LimitPolicy) (b : Batch) : Decidable (BatchInv p b) := by
  unfold BatchInv; infer_instance

/-- Modelled from the spec: one wire-level response as seen by the
RequestDispatcher (§4.3, §6): an HTTP status code with a body, or a
transport-level failure (no response). -/
inductive RawResponse (β : Type) where
  | http (status : Nat) (body : β)
  | transportFailure
deriving DecidableEq, Repr

/-- Modelled from the spec: the dispatcher's terminal outcomes (§4.3, §7). -/
inductive DispatchOutcome (β : Type) where
  | success (body : β)
  | quotaExceeded
  | serviceUnavailable
  | requestRejected (body : β)
  | networkError
deriving DecidableEq, Repr

/-- Modelled from the spec: classification of one attempt's response
(§4.3): 2xx → success; 429 → retryable rate limit; 5xx → retryable transient
failure; other 4xx → non-retryable rejection carrying the payload verbatim;
no response → retryable transport failure.  Status codes the spec does not
classify (1xx, 3xx) are treated as non-retryable rejections. -/
inductive AttemptClass (β : Type) where
  | ok (body : β)
  | retry429
  | retry5xx
  | retryTransport
  | reject (body : β)
deriving DecidableEq, Repr

def classify {β : Type} : RawResponse β → AttemptClass β
  | .transportFailure => .retryTransport
  | .http s b =>
    if 200 ≤ s ∧ s < 300 then .ok b
    else if s = 429 then .retry429
    else if 500 ≤ s ∧ s < 600 then .retry5xx
    else .reject b

/-- Whether an attempt classification calls for a retry (§4.3). -/
def AttemptClass.retryable {β : Type} : AttemptClass β → Bool
  | .retry429 => true
  | .retry5xx => true
  | .retryTransport => true
  | _ => false

/-- The terminal error surfaced when the retry bound is exhausted on a
retryable classification (§4.3): 429 → `QuotaExceeded`, 5xx →
`ServiceUnavailable`, transport failure → `NetworkError`. -/
def AttemptClass.exhausted {β : Type} : AttemptClass β → DispatchOutcome β
  | .ok b => .success b
  | .retry429 => .quotaExceeded
  | .retry5xx => .serviceUnavailable
  | .retryTransport => .networkError
  | .reject b => .requestRejected b

/-- The response the transport yields on the `n`-th attempt (0-based); once
the scripted responses run out, the transport fails. -/
def respAt {β : Type} (responses : List (RawResponse β)) (n : Nat) : RawResponse β :=
  responses.getD n .transportFailure

/-- Modelled from the spec: the dispatcher's bounded-attempt retry loop
(§4.3, §9): an explicit attempt counter, one attempt per iteration, retrying
retryable outcomes while attempts remain and surfacing the exhaustion error
once the bound is reached.  `fuel` is the number of attempts still allowed,
`made` the number of attempts already made; the result carries the total
number of attempts made. -/
def dispatchAux {β : Type} (responses : List (RawResponse β)) :
    Nat → Nat → DispatchOutcome β × Nat
  | 0, made => (.networkError, made)
  | fuel + 1, made =>
    match classify (respAt responses made) with
    | .ok b => (.success b, made + 1)
    | .reject b => (.requestRejected b, made + 1)
    | .retry429 =>
      if fuel = 0 then (.quotaExceeded, made + 1)
      else dispatchAux responses fuel (made + 1)
    | .retry5xx =>
      if fuel = 0 then (.serviceUnavailable, made + 1)
      else dispatchAux responses fuel (made + 1)
    | .retryTransport =>
      if fuel = 0 then (.networkError, made + 1)
      else dispatchAux responses fuel (made + 1)

/-- Modelled from the spec: RequestDispatcher (§4.3) — dispatches one batch,
making at most `bound` attempts against the scripted transport responses,
and reports the terminal outcome together with the number of attempts
made. -/
def dispatch {β : Type} (bound : Nat) (responses : List (RawResponse β)) :
    DispatchOutcome β × Nat :=
  dispatchAux responses bound 0

/-- Modelled from the spec: sequential dispatch of the batches in order
(§4.3, §5): each batch is dispatched via the transport (modelled as a map
from the batch, i.e. the wire request, to its scripted response sequence);
on success the per-batch bodies are collected in order, and the first
unrecoverable failure stops the loop.  The second component counts how many
batches were actually dispatched. -/
def runBatches {β : Type} (bound : Nat)
    (transport : Batch → List (RawResponse β)) :
    List Batch → Except (DispatchOutcome β) (List β) × Nat
  | [] => (.ok [], 0)
  | b :: bs =>
    match dispatch bound (transport b) with
    | (.success body, _) =>
      let r := runBatches bound transport bs
      (r.1.map (fun bodies => body :: bodies), r.2 + 1)
    | (o, _) => (.error o, 1)

/-- Modelled from the spec: the errors a top-level scan call can surface
(§6, §7): the pre-flight `ContentTooLarge`, or the first batch's
unrecoverable dispatch error. -/
inductive ScanError (β : Type) where
  | contentTooLarge (e : ContentTooLarge)
  | dispatchFailed (e : DispatchOutcome β)
deriving DecidableEq, Repr

/-- Modelled from the spec: the caller-facing scan operation with the
ResultAggregator (§4.4, §6): chunk the documents (failing pre-flight, with
zero dispatches, on `ContentTooLarge`), dispatch the batches in order, and
on overall success concatenate each batch's per-document response bodies in
batch order.  A batch's success body is the list of per-document results for
that batch (§6).  The second component counts how many batches were
dispatched. -/
def scanA {β : Type} (p : LimitPolicy) (bound : Nat)
    (transport : Batch → List (RawResponse (List β)))
    (docs : List DocumentModel) :
    Except (ScanError (List β)) (List β) × Nat :=
  match chunk p docs with
  | .error e => (.error (.contentTooLarge e), 0)
  | .ok batches =>
    match runBatches bound transport batches with
    | (.ok bodies, n) => (.ok bodies.flatten, n)
    | (.error o, n) => (.error (.dispatchFailed o), n)

/-- From `src/pygitguardian/__init__.py`: the package version string
`__version__`. -/
def package_version : String := "1.15.1"

/-- The class attribute `GGClient._version`, as mutable import-time state of
the `GGClient` class (the class itself lives in the missing `client`
module). -/
structure GGClientAttrs where
  version_attr : String
deriving DecidableEq, Repr

/-- From `src/pygitguardian/__init__.py` line 7: importing the package
assigns `GGClient._version = __version__`. -/
def importPyGitGuardian (pre : GGClientAttrs) : GGClientAttrs :=
  { pre with version_attr := package_version }

theorem chunkGo_flatten (p : LimitPolicy) :
    ∀ (docs : List DocumentModel) (idx : Nat) (cur : Batch) (acc : List Batch)
      (bs : List Batch), chunkGo p idx cur acc docs = .ok bs →
      (bs.map Batch.documents).flatten =
        (acc.map Batch.documents).flatten ++ cur.documents ++ docs := by
  intro docs
  induction docs with
  | nil =>
    intro idx cur acc bs h
    simp only [chunkGo, Except.ok.injEq] at h
    subst h
    by_cases hc : cur.documents.isEmpty
    · simp [hc, List.isEmpty_iff.mp hc]
    · simp [hc]
  | cons d rest ih =>
    intro idx cur acc bs h
    simp only [chunkGo] at h
    split at h
    · simp at h
    · split at h
      · have := ih (idx + 1) ⟨cur.documents ++ [d], cur.byte_total + docSize d⟩ acc bs h
        simpa [List.append_assoc] using this
      · have := ih (idx + 1) ⟨[d], docSize d⟩ (acc ++ [cur]) bs h
        simp only [List.map_append, List.flatten_append] at this
        simp [this, List.append_assoc]

theorem chunkGo_inv (p : LimitPolicy)
    (h1 : p.max_bytes_per_document ≤ p.max_bytes_per_batch)
    (h2 : 1 ≤ p.max_documents_per_batch) :
    ∀ (docs : List DocumentModel) (idx : Nat) (cur : Batch) (acc : List Batch)
      (bs : List Batch), BatchInv p cur → (∀ b ∈ acc, BatchInv p b) →
      chunkGo p idx cur acc docs = .ok bs → ∀ b ∈ bs, BatchInv p b := by
  intro docs
  induction docs with
  | nil =>
    intro idx cur acc bs hcur hacc h
    simp only [chunkGo, Except.ok.injEq] at h
    subst h
    intro b hb
    by_cases hc : cur.documents.isEmpty
    · simp [hc] at hb
      exact hacc b hb
    · simp [hc] at hb
      rcases hb with hb | hb
      · exact hacc b hb
      · exact hb ▸ hcur
  | cons d rest ih =>
    intro idx cur acc bs hcur hacc h
    simp only [chunkGo] at h
    split at h
    · simp at h
    · rename_i hbig
      split at h
      · rename_i hfit
        obtain ⟨e1, e2, e3⟩ := hcur
        refine ih (idx + 1) ⟨cur.documents ++ [d], cur.byte_total + docSize d⟩
          acc bs ⟨?_, hfit.2, ?_⟩ hacc h
        · simp [e1]
        · simpa using hfit.1
      · refine ih (idx + 1) ⟨[d], docSize d⟩ (acc ++ [cur]) bs
          ⟨by simp, le_trans (Nat.le_of_not_lt hbig) h1, by simpa using h2⟩
          ?_ h
        intro b hb
        rcases List.mem_append.mp hb with hb | hb
        · exact hacc b hb
        · simp at hb
          exact hb ▸ hcur

theorem chunkGo_ok_of_sizes (p : LimitPolicy) :
    ∀ (docs : List DocumentModel) (idx : Nat) (cur : Batch) (acc : List Batch),
      (∀ d ∈ docs, docSize d ≤ p.max_bytes_per_document) →
      ∃ bs, chunkGo p idx cur acc docs = .ok bs := by
  intro docs
  induction docs with
  | nil =>
    intro idx cur acc _
    exact ⟨_, rfl⟩
  | cons d rest ih =>
    intro idx cur acc hs
    have hd : docSize d ≤ p.max_bytes_per_document := hs d (by simp)
    have hrest : ∀ x ∈ rest, docSize x ≤ p.max_bytes_per_document :=
      fun x hx => hs x (by simp [hx])
    simp only [chunkGo]
    rw [if_neg (by omega)]
    split
    · exact ih _ _ _ hrest
    · exact ih _ _ _ hrest

theorem chunkGo_error_of_oversize (p : LimitPolicy) :
    ∀ (docs : List DocumentModel) (idx : Nat) (cur : Batch) (acc : List Batch),
      (∃ d ∈ docs, p.max_bytes_per_document < docSize d) →
      ∃ e, chunkGo p idx cur acc docs = .error e := by
  intro docs
  induction docs with
  | nil =>
    intro idx cur acc hbig
    simp at hbig
  | cons d rest ih =>
    intro idx cur acc hbig
    by_cases hd : p.max_bytes_per_document < docSize d
    · refine ⟨⟨idx, d.filename⟩, ?_⟩
      simp only [chunkGo]
      rw [if_pos hd]
    · have : ∃ x ∈ rest, p.max_bytes_per_document < docSize x := by
        rcases hbig with ⟨x, hx, hxl⟩
        rcases List.mem_cons.mp hx with hx | hx
        · exact absurd (hx ▸ hxl) hd
        · exact ⟨x, hx, hxl⟩
      simp only [chunkGo]
      rw [if_neg hd]
      split
      · exact ih _ _ _ this
      · exact ih _ _ _ this

theorem chunkGo_error_spec (p : LimitPolicy) :
    ∀ (docs : List DocumentModel) (idx : Nat) (cur : Batch) (acc : List Batch)
      (e : ContentTooLarge), chunkGo p idx cur acc docs = .error e →
      ∃ k, ∃ hk : k < docs.length,
        e.index = idx + k ∧
        p.max_bytes_per_document < docSize (docs.get ⟨k, hk⟩) ∧
        e.filename = (docs.get ⟨k, hk⟩).filename := by
  intro docs
  induction docs with
  | nil =>
    intro idx cur acc e h
    simp [chunkGo] at h
  | cons d rest ih =>
    intro idx cur acc e h
    simp only [chunkGo] at h
    split at h
    · rename_i hbig
      injection h with h'
      subst h'
      exact ⟨0, by simp, by simp, by simpa using hbig, by simp⟩
    · split at h
      · obtain ⟨k, hk, hi, hs, hf⟩ := ih (idx + 1) _ acc e h
        exact ⟨k + 1, by simpa using hk, by omega, by simpa using hs, by simpa using hf⟩
      · obtain ⟨k, hk, hi, hs, hf⟩ := ih (idx + 1) _ (acc ++ [cur]) e h
        exact ⟨k + 1, by simpa using hk, by omega, by simpa using hs, by simpa using hf⟩

theorem dispatchAux_exhaust {β : Type} (responses : List (RawResponse β))
    (c : AttemptClass β) (hr : c.retryable = true) :
    ∀ (fuel made : Nat), 1 ≤ fuel →
      (∀ i, made ≤ i → i < made + fuel → classify (respAt responses i) = c) →
      dispatchAux responses fuel made = (c.exhausted, made + fuel) := by
  intro fuel
  induction fuel with
  | zero => intro made h; omega
  | succ fuel ih =>
    intro made _ hc
    have h0 : classify (respAt responses made) = c := hc made le_rfl (by omega)
    cases c with
    | ok b => simp [AttemptClass.retryable] at hr
    | reject b => simp [AttemptClass.retryable] at hr
    | retry429 =>
      simp only [dispatchAux, h0]
      by_cases hf : fuel = 0
      · subst hf
        simp [AttemptClass.exhausted]
      · rw [if_neg hf,
          ih (made + 1) (by omega) (fun i hi1 hi2 => hc i (by omega) (by omega))]
        exact Prod.ext rfl (by omega)
    | retry5xx =>
      simp only [dispatchAux, h0]
      by_cases hf : fuel = 0
      · subst hf
        simp [AttemptClass.exhausted]
      · rw [if_neg hf,
          ih (made + 1) (by omega) (fun i hi1 hi2 => hc i (by omega) (by omega))]
        exact Prod.ext rfl (by omega)
    | retryTransport =>
      simp only [dispatchAux, h0]
      by_cases hf : fuel = 0
      · subst hf
        simp [AttemptClass.exhausted]
      · rw [if_neg hf,
          ih (made + 1) (by omega) (fun i hi1 hi2 => hc i (by omega) (by omega))]
        exact Prod.ext rfl (by omega)

theorem dispatchAux_step_retry {β : Type} (responses : List (RawResponse β))
    (fuel made : Nat) (hf : 2 ≤ fuel)
    (hc : (classify (respAt responses made)).retryable = true) :
    dispatchAux responses fuel made = dispatchAux responses (fuel - 1) (made + 1) := by
  obtain ⟨k, rfl⟩ : ∃ k, fuel = k + 2 := ⟨fuel - 2, by omega⟩
  have hk : k + 2 - 1 = k + 1 := by omega
  rw [hk]
  show dispatchAux responses (k + 1 + 1) made = _
  cases hcl : classify (respAt responses made) with
  | ok b => rw [hcl] at hc; simp [AttemptClass.retryable] at hc
  | reject b => rw [hcl] at hc; simp [AttemptClass.retryable] at hc
  | retry429 => simp only [dispatchAux, hcl]; rw [if_neg (by omega)]
  | retry5xx => simp only [dispatchAux, hcl]; rw [if_neg (by omega)]
  | retryTransport => simp only [dispatchAux, hcl]; rw [if_neg (by omega)]

theorem dispatchAux_success {β : Type} (responses : List (RawResponse β))
    (fuel made : Nat) (hf : 1 ≤ fuel) (b : β)
    (hc : classify (respAt responses made) = .ok b) :
    dispatchAux responses fuel made = (.success b, made + 1) := by
  obtain ⟨k, rfl⟩ : ∃ k, fuel = k + 1 := ⟨fuel - 1, by omega⟩
  simp only [dispatchAux, hc]

theorem dispatchAux_reject {β : Type} (responses : List (RawResponse β))
    (fuel made : Nat) (hf : 1 ≤ fuel) (b : β)
    (hc : classify (respAt responses made) = .reject b) :
    dispatchAux responses fuel made = (.requestRejected b, made + 1) := by
  obtain ⟨k, rfl⟩ : ∃ k, fuel = k + 1 := ⟨fuel - 1, by omega⟩
  simp only [dispatchAux, hc]

theorem runBatches_success {β : Type} (bound : Nat)
    (transport : Batch → List (RawResponse (List β))) (f : DocumentModel → β) :
    ∀ batches : List Batch,
      (∀ b ∈ batches,
        (dispatch bound (transport b)).1 = .success (b.documents.map f)) →
      runBatches bound transport batches =
        (.ok (batches.map (fun b => b.documents.map f)), batches.length) := by
  intro batches
  induction batches with
  | nil => intro _; rfl
  | cons b bs ih =>
    intro h
    have hd := h b (by simp)
    cases hq : dispatch bound (transport b) with
    | mk o n =>
      rw [hq] at hd
      simp only at hd
      subst hd
      simp only [runBatches, hq]
      rw [ih (fun x hx => h x (by simp [hx]))]
      simp [Except.map]

theorem runBatches_failure {β : Type} (bound : Nat)
    (transport : Batch → List (RawResponse β)) :
    ∀ (pre bfailing : List Batch) (bf : Batch) (o : DispatchOutcome β),
      (∀ b ∈ pre, ∃ body, (dispatch bound (transport b)).1 = .success body) →
      (dispatch bound (transport bf)).1 = o →
      (∀ body, o ≠ .success body) →
      runBatches bound transport (pre ++ bf :: bfailing) = (.error o, pre.length + 1) := by
  intro pre
  induction pre with
  | nil =>
    intro bfailing bf o _ ho hns
    cases hq : dispatch bound (transport bf) with
    | mk o' n =>
      rw [hq] at ho
      simp only at ho
      subst ho
      simp only [List.nil_append, runBatches, hq]
      cases o' with
      | success body => exact absurd rfl (hns body)
      | quotaExceeded => rfl
      | serviceUnavailable => rfl
      | requestRejected body => rfl
      | networkError => rfl
  | cons b pre ih =>
    intro bfailing bf o hpre ho hns
    obtain ⟨body, hb⟩ := hpre b (by simp)
    cases hq : dispatch bound (transport b) with
    | mk o' n =>
      rw [hq] at hb
      simp only at hb
      subst hb
      simp only [List.cons_append, runBatches, hq]
      rw [List.append_eq, ih bfailing bf o (fun x hx => hpre x (by simp [hx])) ho hns]
      simp [Except.map]

/-- A 10-byte document named d0, for the concrete chunking scenarios. -/
def exDoc0 : DocumentModel := ⟨List.replicate 10 0, some "d0", none⟩

/-- A 10-byte document named d1. -/
def exDoc1 : DocumentModel := ⟨List.replicate 10 0, some "d1", none⟩

/-- A 10-byte document named d2. -/
def exDoc2 : DocumentModel := ⟨List.replicate 10 0, some "d2", none⟩

/-- A 15-byte document, filling a 25-byte batch that already holds 10 bytes. -/
def exDoc15 : DocumentModel := ⟨List.replicate 15 0, some "d15", none⟩

/-- Concrete limit policy of the spec's chunking scenario:
`max_bytes_per_batch = 25`, per-document limit equal to the batch limit. -/
def exPolicy : LimitPolicy := ⟨20, 25, 25⟩

/-- Concrete limit policy with a small 12-byte per-document limit. -/
def exPolicyS : LimitPolicy := ⟨20, 25, 12⟩

/-- A 13-byte document, oversize under `exPolicyS`. -/
def bigDoc : DocumentModel := ⟨List.replicate 13 0, some "big", none⟩

/-- Claim C1: every batch produced by `chunk` satisfies the limit invariants —
its `byte_total` is the sum of its documents' content byte lengths, is at most
`max_bytes_per_batch`, and its document count is at most
`max_documents_per_batch` (for a well-formed limit policy). -/
theorem chunk_batch_invariants (p : LimitPolicy) (docs : List DocumentModel)
    (bs : List Batch)
    (h1 : p.max_bytes_per_document ≤ p.max_bytes_per_batch)
    (h2 : 1 ≤ p.max_documents_per_batch)
    (hok : chunk p docs = .ok bs) :
    ∀ b ∈ bs, b.byte_total = (b.documents.map docSize).sum ∧
      b.byte_total ≤ p.max_bytes_per_batch ∧
      b.documents.length ≤ p.max_documents_per_batch :=
  chunkGo_inv p h1 h2 docs 0 ⟨[], 0⟩ [] bs ⟨rfl, by simp, by simp⟩ (by simp) hok

/-- Witness for C1: the invariants hold for the first batch of the concrete
scenario `chunk exPolicy [exDoc0, exDoc1, exDoc2]`. -/
theorem chunk_batch_invariants_witness :
    (⟨[exDoc0, exDoc1], 20⟩ : Batch).byte_total =
      ((⟨[exDoc0, exDoc1], 20⟩ : Batch).documents.map docSize).sum ∧
    (⟨[exDoc0, exDoc1], 20⟩ : Batch).byte_total ≤ exPolicy.max_bytes_per_batch ∧
    (⟨[exDoc0, exDoc1], 20⟩ : Batch).documents.length ≤
      exPolicy.max_documents_per_batch :=
  chunk_batch_invariants exPolicy [exDoc0, exDoc1, exDoc2]
    [⟨[exDoc0, exDoc1], 20⟩, ⟨[exDoc2], 10⟩] (by decide) (by decide) (by rfl)
    ⟨[exDoc0, exDoc1], 20⟩ (by simp)

/-- Claim C2: concatenating the batches returned by `chunk`, in batch order,
yields exactly the input document list (so the total document count matches
and no document is reordered or duplicated), and empty input yields an empty
batch sequence rather than an error. -/
theorem chunk_concat (p : LimitPolicy) (docs : List DocumentModel) :
    (∀ bs, chunk p docs = .ok bs →
      (bs.map Batch.documents).flatten = docs ∧
      (bs.map (fun b => b.documents.length)).sum = docs.length) ∧
    chunk p [] = .ok [] := by
  constructor
  · intro bs hok
    have h := chunkGo_flatten p docs 0 ⟨[], 0⟩ [] bs hok
    simp only [List.map_nil, List.flatten_nil, List.nil_append] at h
    refine ⟨h, ?_⟩
    have h2 := congrArg List.length h
    rw [List.length_flatten, List.map_map] at h2
    simpa [Function.comp] using h2
  · rfl

/-- Witness for C2: concatenation recovers the input in the concrete
three-document scenario. -/
theorem chunk_concat_witness :
    (([⟨[exDoc0, exDoc1], 20⟩, ⟨[exDoc2], 10⟩] : List Batch).map
        Batch.documents).flatten = [exDoc0, exDoc1, exDoc2] ∧
    (([⟨[exDoc0, exDoc1], 20⟩, ⟨[exDoc2], 10⟩] : List Batch).map
        (fun b => b.documents.length)).sum =
      ([exDoc0, exDoc1, exDoc2] : List DocumentModel).length :=
  (chunk_concat exPolicy [exDoc0, exDoc1, exDoc2]).1
    [⟨[exDoc0, exDoc1], 20⟩, ⟨[exDoc2], 10⟩] (by rfl)

/-- Claim C9: chunking is deterministic and idempotent over its input —
running `chunk` twice on the same document list yields identical batch
boundaries. -/
theorem chunk_deterministic (p : LimitPolicy) (docs : List DocumentModel) :
    chunk p docs = chunk p docs := rfl

/-- Witness for C9 at a concrete input. -/
theorem chunk_deterministic_witness :
    chunk exPolicyS [bigDoc] = chunk exPolicyS [bigDoc] :=
  chunk_deterministic exPolicyS [bigDoc]

/-- Claim C10: importing the package sets the class attribute
`GGClient._version` to the package version string, so after import
`GGClient._version` equals `__version__` equals "1.15.1". -/
theorem import_sets_version (pre : GGClientAttrs) :
    (importPyGitGuardian pre).version_attr = package_version ∧
    package_version = "1.15.1" :=
  ⟨rfl, rfl⟩

/-- Witness for C10: from any prior attribute value. -/
theorem import_sets_version_witness :
    (importPyGitGuardian ⟨"0"⟩).version_attr = package_version ∧
    package_version = "1.15.1" :=
  import_sets_version ⟨"0"⟩

/-- Claim C3: chunking fails with `ContentTooLarge` if and only if some input
document's byte length exceeds `max_bytes_per_document`; the error identifies
the oversize document (position and filename), and when chunking fails no
dispatch happens (the scan ends with zero batches dispatched, so the oversize
document is never placed in any batch). -/
theorem chunk_fails_iff_oversize (p : LimitPolicy) (docs : List DocumentModel) :
    ((∃ e, chunk p docs = .error e) ↔
      ∃ d ∈ docs, p.max_bytes_per_document < docSize d) ∧
    (∀ e, chunk p docs = .error e →
      ∃ hk : e.index < docs.length,
        p.max_bytes_per_document < docSize (docs.get ⟨e.index, hk⟩) ∧
        e.filename = (docs.get ⟨e.index, hk⟩).filename) ∧
    (∀ (e : ContentTooLarge) (β : Type) (bound : Nat)
        (transport : Batch → List (RawResponse (List β))),
      chunk p docs = .error e →
      scanA p bound transport docs = (.error (.contentTooLarge e), 0)) := by
  refine ⟨⟨?_, ?_⟩, ?_, ?_⟩
  · rintro ⟨e, he⟩
    obtain ⟨k, hk, hi, hs, hf⟩ := chunkGo_error_spec p docs 0 ⟨[], 0⟩ [] e he
    exact ⟨docs.get ⟨k, hk⟩, List.get_mem docs k hk, hs⟩
  · intro hov
    exact chunkGo_error_of_oversize p docs 0 ⟨[], 0⟩ [] hov
  · intro e he
    obtain ⟨k, hk, hi, hs, hf⟩ := chunkGo_error_spec p docs 0 ⟨[], 0⟩ [] e he
    have hi' : k = e.index := by omega
    subst hi'
    exact ⟨hk, hs, hf⟩
  · intro e β bound transport he
    simp only [scanA, he]

/-- Witness for C3: a 13-byte document under a 12-byte per-document limit
makes the scan fail pre-flight with zero batches dispatched, identifying the
document. -/
theorem chunk_fails_iff_oversize_witness :
    scanA exPolicyS 5 (fun _ => ([] : List (RawResponse (List Nat)))) [bigDoc] =
      (.error (.contentTooLarge ⟨0, some "big"⟩), 0) :=
  (chunk_fails_iff_oversize exPolicyS [bigDoc]).2.2 ⟨0, some "big"⟩ Nat 5
    (fun _ => []) (by rfl)

/-- Claim C7: the chunking boundary is inclusive — a document whose size
exactly equals the remaining byte capacity of the current batch is placed in
that batch rather than starting a new one; and for three 10-byte documents
with `max_bytes_per_batch = 25`, `chunk` produces exactly the batches
`[[d0, d1], [d2]]`. -/
theorem chunk_boundary_inclusive (p : LimitPolicy) (idx : Nat) (cur : Batch)
    (acc : List Batch) (d : DocumentModel) (rest : List DocumentModel)
    (hsize : docSize d ≤ p.max_bytes_per_document)
    (hcount : cur.documents.length + 1 ≤ p.max_documents_per_batch)
    (hexact : cur.byte_total + docSize d = p.max_bytes_per_batch) :
    chunkGo p idx cur acc (d :: rest) =
      chunkGo p (idx + 1) ⟨cur.documents ++ [d], cur.byte_total + docSize d⟩
        acc rest ∧
    chunk exPolicy [exDoc0, exDoc1, exDoc2] =
      .ok [⟨[exDoc0, exDoc1], 20⟩, ⟨[exDoc2], 10⟩] := by
  constructor
  · simp only [chunkGo]
    rw [if_neg (by omega), if_pos ⟨hcount, by omega⟩]
  · rfl

/-- Witness for C7: a 15-byte document exactly fills the remaining capacity
of a batch holding 10 of 25 bytes and is placed in that batch. -/
theorem chunk_boundary_inclusive_witness :
    chunkGo exPolicy 0 ⟨[exDoc0], 10⟩ [] [exDoc15] =
      chunkGo exPolicy 1 ⟨[exDoc0, exDoc15], 25⟩ [] [] ∧
    chunk exPolicy [exDoc0, exDoc1, exDoc2] =
      .ok [⟨[exDoc0, exDoc1], 20⟩, ⟨[exDoc2], 10⟩] :=
  chunk_boundary_inclusive exPolicy 0 ⟨[exDoc0], 10⟩ [] exDoc15 []
    (by decide) (by decide) (by decide)

/-- Claim C4: a top-level scan is all-or-nothing — when every batch dispatch
succeeds with per-document results aligned to its documents, the caller gets
exactly one result per input document, in original input order (output index
`i` is the result for input document `i`, so the lengths match); when some
batch dispatch ends in an unrecoverable error, the whole call fails with
exactly that first batch error and the earlier batches' partial results are
discarded. -/
theorem scan_all_or_nothing (p : LimitPolicy) (bound : Nat) (β : Type)
    (transport : Batch → List (RawResponse (List β)))
    (docs : List DocumentModel) (batches : List Batch)
    (hch : chunk p docs = .ok batches) :
    (∀ f : DocumentModel → β,
      (∀ b ∈ batches,
        (dispatch bound (transport b)).1 = .success (b.documents.map f)) →
      scanA p bound transport docs = (.ok (docs.map f), batches.length)) ∧
    (∀ (pre : List Batch) (bf : Batch) (post : List Batch)
        (o : DispatchOutcome (List β)),
      batches = pre ++ bf :: post →
      (∀ b ∈ pre, ∃ body, (dispatch bound (transport b)).1 = .success body) →
      (dispatch bound (transport bf)).1 = o →
      (∀ body, o ≠ .success body) →
      scanA p bound transport docs =
        (.error (.dispatchFailed o), pre.length + 1)) := by
  constructor
  · intro f hsucc
    have hr := runBatches_success bound transport f batches hsucc
    have hflat := chunkGo_flatten p docs 0 ⟨[], 0⟩ [] batches hch
    simp only [List.map_nil, List.flatten_nil, List.nil_append] at hflat
    have hmapped : (batches.map (fun b => b.documents.map f)).flatten =
        docs.map f := by
      rw [← hflat, List.map_flatten, List.map_map]
      rfl
    simp only [scanA, hch, hr, hmapped]
  · intro pre bf post o hbe hpre ho hns
    subst hbe
    have hr := runBatches_failure bound transport pre post bf o hpre ho hns
    simp only [scanA, hch, hr]

/-- Witness for C4: a single-batch scan whose dispatch answers 200 with one
result per document yields one result per input document. -/
theorem scan_all_or_nothing_witness :
    scanA exPolicy 1
        (fun b => [.http 200 (b.documents.map (fun _ => ([42] : List Nat)))])
        [exDoc0] =
      (.ok [[42]], 1) :=
  (scan_all_or_nothing exPolicy 1 (List Nat)
      (fun b => [.http 200 (b.documents.map (fun _ => ([42] : List Nat)))])
      [exDoc0] [⟨[exDoc0], 10⟩] (by rfl)).1
    (fun _ => [42]) (by decide)

/-- Claim C5: a batch whose dispatch receives 429 on three consecutive
attempts and then 200 terminates in success after exactly 4 attempts (when
the retry bound is at least 4); and when every attempted response up to the
bound is 429, the dispatcher surfaces `QuotaExceeded` after exactly `bound`
attempts. -/
theorem dispatch_rate_limit_retry {β : Type} (bound : Nat) (h4 : 4 ≤ bound)
    (e1 e2 e3 b : β) (rest : List (RawResponse β)) :
    dispatch bound
        (.http 429 e1 :: .http 429 e2 :: .http 429 e3 :: .http 200 b :: rest) =
      (.success b, 4) ∧
    ∀ rs : List (RawResponse β),
      (∀ i, i < bound → ∃ e, respAt rs i = .http 429 e) →
      dispatch bound rs = (.quotaExceeded, bound) := by
  have c429 : ∀ (e : β), classify (RawResponse.http 429 e) = .retry429 := by
    intro e
    simp only [classify]
    rw [if_neg (by omega)]
    simp
  constructor
  · set L := RawResponse.http 429 e1 :: RawResponse.http 429 e2 ::
      RawResponse.http 429 e3 :: RawResponse.http 200 b :: rest with hL
    have h0 : (classify (respAt L 0)).retryable = true := by
      rw [show respAt L 0 = RawResponse.http 429 e1 from rfl, c429 e1]
      rfl
    have h1 : (classify (respAt L 1)).retryable = true := by
      rw [show respAt L 1 = RawResponse.http 429 e2 from rfl, c429 e2]
      rfl
    have h2 : (classify (respAt L 2)).retryable = true := by
      rw [show respAt L 2 = RawResponse.http 429 e3 from rfl, c429 e3]
      rfl
    have h3 : classify (respAt L 3) = .ok b := by
      rw [show respAt L 3 = RawResponse.http 200 b from rfl]
      simp only [classify]
      rw [if_pos ⟨by omega, by omega⟩]
    show dispatchAux L bound 0 = (.success b, 4)
    rw [dispatchAux_step_retry L bound 0 (by omega) h0,
      dispatchAux_step_retry L (bound - 1) 1 (by omega) h1,
      dispatchAux_step_retry L (bound - 1 - 1) 2 (by omega) h2,
      dispatchAux_success L (bound - 1 - 1 - 1) 3 (by omega) b h3]
  · intro rs hrs
    have hcl : ∀ i, 0 ≤ i → i < 0 + bound →
        classify (respAt rs i) = .retry429 := by
      intro i _ hi
      obtain ⟨e, he⟩ := hrs i (by omega)
      rw [he, c429]
    show dispatchAux rs bound 0 = _
    rw [dispatchAux_exhaust rs .retry429 rfl bound 0 (by omega) hcl]
    exact Prod.ext rfl (by omega)

/-- Witness for C5: three 429 responses then a 200 give success in exactly 4
attempts at bound 4. -/
theorem dispatch_rate_limit_retry_witness :
    dispatch 4
        [RawResponse.http 429 (0 : Nat), .http 429 0, .http 429 0,
          .http 200 7] =
      (.success 7, 4) :=
  (dispatch_rate_limit_retry 4 (by omega) 0 0 0 7 []).1

/-- Claim C8: a 4xx status other than 429 is never retried — dispatch makes
exactly one attempt and surfaces `RequestRejected` carrying the service's
error payload verbatim. -/
theorem dispatch_reject_no_retry {β : Type} (bound s : Nat) (hb : 1 ≤ bound)
    (h4 : 400 ≤ s) (h5 : s < 500) (hne : s ≠ 429) (body : β)
    (rest : List (RawResponse β)) :
    dispatch bound (.http s body :: rest) = (.requestRejected body, 1) := by
  have hc : classify (respAt (RawResponse.http s body :: rest) 0) =
      .reject body := by
    rw [show respAt (RawResponse.http s body :: rest) 0 =
      RawResponse.http s body from rfl]
    simp only [classify]
    rw [if_neg (by omega), if_neg hne, if_neg (by omega)]
  show dispatchAux _ bound 0 = _
  rw [dispatchAux_reject _ bound 0 (by omega) body hc]

/-- Witness for C8: a 404 with payload is rejected after exactly one
attempt, payload intact. -/
theorem dispatch_reject_no_retry_witness :
    dispatch 3 [RawResponse.http 404 (9 : Nat)] = (.requestRejected 9, 1) :=
  dispatch_reject_no_retry 3 404 (by omega) (by omega) (by omega) (by omega)
    9 []

/-- Claim C6: when the first batch's dispatch receives a 5xx response on
every attempt until the retry bound is exhausted, the overall scan fails
with `ServiceUnavailable`, and no batch after the failing one is ever
dispatched (exactly one batch is dispatched, whatever comes later). -/
theorem scan_service_unavailable (p : LimitPolicy) (bound : Nat)
    (hb : 1 ≤ bound) (β : Type)
    (transport : Batch → List (RawResponse (List β)))
    (docs : List DocumentModel) (b : Batch) (later : List Batch)
    (hch : chunk p docs = .ok (b :: later))
    (h5 : ∀ i, i < bound → ∃ s body, respAt (transport b) i = .http s body ∧
      500 ≤ s ∧ s < 600) :
    scanA p bound transport docs =
      (.error (.dispatchFailed .serviceUnavailable), 1) := by
  have hcl : ∀ i, 0 ≤ i → i < 0 + bound →
      classify (respAt (transport b) i) = .retry5xx := by
    intro i _ hi
    obtain ⟨s, body, he, hs1, hs2⟩ := h5 i (by omega)
    rw [he]
    simp only [classify]
    rw [if_neg (by omega), if_neg (by omega), if_pos ⟨hs1, hs2⟩]
  have hd : dispatch bound (transport b) = (.serviceUnavailable, bound) := by
    show dispatchAux (transport b) bound 0 = _
    rw [dispatchAux_exhaust (transport b) .retry5xx rfl bound 0 (by omega) hcl]
    exact Prod.ext rfl (by omega)
  simp only [scanA, hch, runBatches, hd]

/-- Witness for C6: with bound 2 and a transport answering 500 twice for the
only batch, the scan fails with `ServiceUnavailable` after dispatching one
batch. -/
theorem scan_service_unavailable_witness :
    scanA exPolicy 2
        (fun _ => [RawResponse.http 500 ([] : List Nat), .http 500 []])
        [exDoc0] =
      (.error (.dispatchFailed .serviceUnavailable), 1) :=
  scan_service_unavailable exPolicy 2 (by omega) Nat
    (fun _ => [RawResponse.http 500 ([] : List Nat), .http 500 []])
    [exDoc0] ⟨[exDoc0], 10⟩ [] (by rfl)
    (by
      intro i hi
      interval_cases i <;> exact ⟨500, [], rfl, by omega, by omega⟩)
